import Mathlib

/-!
Verification of the chat-bridge subsystem of the opencode-for-devcontainers
extension: the event schema (src/chat/types.ts), the heuristic output
adapter (src/chat/opencodeAdapter.ts), the process bridge (OpenCodeBridge),
the subagent activity tracker (SubagentTracker in src/chat/responseRenderer.ts),
the response renderer's subagent summary, and the config reader's model-string
parsing (src/chat/opencodeConfigReader.ts).

Conventions of the embedding:
  * JavaScript objects become structures; in-place mutation becomes
    functions returning the updated value.
  * `Date.now()` timestamps are threaded as an explicit `now : Nat`.
  * Events fired on a `vscode.EventEmitter` are collected into an output
    list, in firing order.
  * `JSON.parse` is a host-language builtin, not repository code; functions
    that call it are parametrised by an abstract parse oracle, so every
    theorem below holds for any parser.
  * Input lines reach the line handlers through `readline` or a
    split-on-newline, so they never contain line terminators; the regex
    anchors `$` and the class `.` are embedded under that assumption.
-/

/-! ## Event schema (src/chat/types.ts) -/

/-- Terminal status carried by a `subagent_end` event. -/
inductive EndStatus where
  | completed
  | failed
  | cancelled
deriving Repr, DecidableEq

/-- Lifecycle status of a tracked subagent. -/
inductive SubagentStatus where
  | running
  | completed
  | failed
  | cancelled
deriving Repr, DecidableEq

/-- Tool arguments are an opaque key-value payload (`Record<string, unknown>`
in the source); the subsystem never inspects the values, so they are
modelled as strings. -/
abbrev ToolArgs := List (String × String)

/-- The OpenCodeEvent tagged union of src/chat/types.ts. -/
inductive OpenCodeEvent where
  | status (message : String) (agent : String)
  | text (content : String) (agent : String)
  | tool_start (tool : String) (args : ToolArgs) (subagentId : Option String)
  | tool_end (tool : String) (result : String) (subagentId : Option String)
  | subagent_start (id : String) (name : String) (parent : String)
  | subagent_end (id : String) (status : EndStatus)
  | done (agent : String)
  | error (message : String)
deriving Repr, DecidableEq

/-- ToolCallInfo of src/chat/types.ts. -/
structure ToolCallInfo where
  tool : String
  args : ToolArgs
  result : Option String := none
  startedAt : Nat
  completedAt : Option Nat := none
deriving Repr, DecidableEq

/-- SubagentInfo of src/chat/types.ts. -/
structure SubagentInfo where
  id : String
  name : String
  parent : String
  status : SubagentStatus
  currentTool : Option String := none
  startedAt : Nat
  completedAt : Option Nat := none
  toolCalls : List ToolCallInfo
deriving Repr, DecidableEq

/-! ## Config reader (src/chat/opencodeConfigReader.ts) -/

/-- Result of `parseModelString`. -/
structure ProviderModel where
  provider : String
  model : String
deriving Repr, DecidableEq

/-- parseModelString of opencodeConfigReader.ts: `raw.indexOf("/")`
followed by `if (idx > 0)`; both `idx === -1` (no slash) and `idx === 0`
(leading slash) fall to the `unknown` branch. String indices are modelled
on the character list (the model strings at stake are ASCII). -/
def parseModelString (raw : String) : ProviderModel :=
  match raw.data.findIdx? (· = '/') with
  | some idx =>
      if idx > 0 then
        ⟨String.mk (raw.data.take idx), String.mk (raw.data.drop (idx + 1))⟩
      else
        ⟨"unknown", raw⟩
  | none => ⟨"unknown", raw⟩

/-- Modelled from the claim's words, for comparison with `parseModelString`:
"parsing splits on the first slash into provider and model", with no
exception for a slash at position 0. -/
def claimSplitModel (raw : String) : ProviderModel :=
  match raw.data.findIdx? (· = '/') with
  | some idx =>
      ⟨String.mk (raw.data.take idx), String.mk (raw.data.drop (idx + 1))⟩
  | none => ⟨"unknown", raw⟩

/-! ## Response renderer summary (src/chat/responseRenderer.ts, lines 79-98) -/

/-- JavaScript `(ms / 1000).toFixed(1)`, for a whole number of milliseconds:
seconds rendered with one decimal digit, rounding to the nearest tenth
(ties upward; the float computation in the source can differ by one final
digit on exact ties `ms ≡ 50 [MOD 100]`, which no claim here exercises). -/
def jsToFixed1 (ms : Nat) : String :=
  let tenths := (ms + 50) / 100
  toString (tenths / 10) ++ "." ++ toString (tenths % 10)

/-- Duration text of renderSubagentSummary: seconds to one decimal when
`completedAt` is set, otherwise "running". -/
def durationOf (sa : SubagentInfo) : String :=
  match sa.completedAt with
  | some c => jsToFixed1 (c - sa.startedAt) ++ "s"
  | none => "running"

/-- Icon selection of renderSubagentSummary. -/
def iconOf (s : SubagentStatus) : String :=
  match s with
  | .completed => "pass"
  | .failed => "fail"
  | _ => "pending"

/-- The status string interpolated by the summary line. -/
def statusText (s : SubagentStatus) : String :=
  match s with
  | .running => "running"
  | .completed => "completed"
  | .failed => "failed"
  | .cancelled => "cancelled"

/-- One summary line per subagent, as pushed by renderSubagentSummary. -/
def renderSummaryLine (sa : SubagentInfo) : String :=
  "- $(testing-" ++ iconOf sa.status ++ "-icon) **" ++ sa.name ++ "** — "
    ++ statusText sa.status ++ " (" ++ durationOf sa ++ ", "
    ++ toString sa.toolCalls.length ++ " tool calls)"

/-- renderSubagentSummary: the list of `stream.markdown` payloads (empty
input renders nothing; otherwise one markdown string joining the header
and one line per subagent). -/
def renderSubagentSummary (subagents : List SubagentInfo) : List String :=
  if subagents.length = 0 then []
  else
    [String.intercalate "\n"
        ("\n---\n**Subagent summary:**\n" :: subagents.map renderSummaryLine)
      ++ "\n"]

/-- Modelled from the claim's words, for comparison with `durationOf`:
"elapsed duration formatted as milliseconds when the elapsed time is under
one second and otherwise as seconds to one decimal place". -/
def claimSummaryDuration (ms : Nat) : String :=
  if ms < 1000 then toString ms ++ "ms" else jsToFixed1 ms ++ "s"

/-! ## Subagent tracker (SubagentTracker in src/chat/responseRenderer.ts) -/

/-- The tracker's `Map<string, SubagentInfo>` in insertion order. -/
abbrev TrackerState := List (String × SubagentInfo)

/-- Map.get: the value stored under a key. -/
def mapGet (st : TrackerState) (k : String) : Option SubagentInfo :=
  (st.find? (fun p => p.1 = k)).map (·.2)

/-- Map.set: replace in place when the key is present (JS Maps keep the
original insertion position), append otherwise. -/
def mapSet (st : TrackerState) (k : String) (v : SubagentInfo) : TrackerState :=
  if st.any (fun p => p.1 = k) then
    st.map (fun p => if p.1 = k then (k, v) else p)
  else
    st ++ [(k, v)]

/-- handleSubagentStart: create a fresh running entry and fire a change. -/
def handleSubagentStart (st : TrackerState) (id name parent : String)
    (now : Nat) : TrackerState × List SubagentInfo :=
  let info : SubagentInfo :=
    { id := id, name := name, parent := parent, status := .running,
      startedAt := now, toolCalls := [] }
  (mapSet st id info, [info])

/-- Status stored by handleSubagentEnd (the event's terminal status). -/
def statusOfEnd (s : EndStatus) : SubagentStatus :=
  match s with
  | .completed => .completed
  | .failed => .failed
  | .cancelled => .cancelled

/-- handleSubagentEnd: unknown ids are ignored; a known id gets the event's
status, a completion time, and its current tool cleared. -/
def handleSubagentEnd (st : TrackerState) (id : String) (es : EndStatus)
    (now : Nat) : TrackerState × List SubagentInfo :=
  match mapGet st id with
  | none => (st, [])
  | some info =>
      let info' := { info with status := statusOfEnd es,
                               completedAt := some now,
                               currentTool := none }
      (mapSet st id info', [info'])

/-- handleToolStart: append a new open tool call and set currentTool. -/
def handleToolStart (st : TrackerState) (subagentId tool : String)
    (args : ToolArgs) (now : Nat) : TrackerState × List SubagentInfo :=
  match mapGet st subagentId with
  | none => (st, [])
  | some info =>
      let tc : ToolCallInfo := { tool := tool, args := args, startedAt := now }
      let info' := { info with toolCalls := info.toolCalls ++ [tc],
                               currentTool := some tool }
      (mapSet st subagentId info', [info'])

/-- Completion step of handleToolEnd applied to the reversed list: the
source's `[...info.toolCalls].reverse().find(...)` selects the first open
entry of the same tool in reverse order and mutates it. -/
def completeFirstOpenRev (tool result : String) (now : Nat) :
    List ToolCallInfo → List ToolCallInfo
  | [] => []
  | tc :: rest =>
      if tc.tool = tool ∧ tc.completedAt = none then
        { tc with result := some result, completedAt := some now } :: rest
      else
        tc :: completeFirstOpenRev tool result now rest

/-- The matching rule of handleToolEnd over the tool-call list: complete the
most recent (last-in-list) entry with the same tool name and no
`completedAt`; untouched when no entry matches. -/
def completeLastOpen (tool result : String) (now : Nat)
    (calls : List ToolCallInfo) : List ToolCallInfo :=
  (completeFirstOpenRev tool result now calls.reverse).reverse

/-- handleToolEnd: unknown subagent ids are ignored; a known id has its
matching open call completed (when one exists), its currentTool cleared
unconditionally, and a change fired unconditionally. -/
def handleToolEnd (st : TrackerState) (subagentId tool result : String)
    (now : Nat) : TrackerState × List SubagentInfo :=
  match mapGet st subagentId with
  | none => (st, [])
  | some info =>
      let info' := { info with
                       toolCalls := completeLastOpen tool result now info.toolCalls,
                       currentTool := none }
      (mapSet st subagentId info', [info'])

/-- markAllCompleted: when a top-level done arrives, every entry still
`running` becomes `completed` (gaining a completion time, clearing its
current tool, firing a change); entries in a terminal status are skipped. -/
def markAllCompleted (now : Nat) : TrackerState → TrackerState × List SubagentInfo
  | [] => ([], [])
  | (k, info) :: rest =>
      let r := markAllCompleted now rest
      if info.status = .running then
        let info' := { info with status := .completed,
                                 completedAt := some now,
                                 currentTool := none }
        ((k, info') :: r.1, info' :: r.2)
      else
        ((k, info) :: r.1, r.2)

/-- handleEvent of SubagentTracker: dispatch on the event variant; tool
events without a subagentId, and content events, are ignored. -/
def handleEvent (st : TrackerState) (now : Nat) :
    OpenCodeEvent → TrackerState × List SubagentInfo
  | .subagent_start id name parent => handleSubagentStart st id name parent now
  | .subagent_end id es => handleSubagentEnd st id es now
  | .tool_start tool args (some sid) => handleToolStart st sid tool args now
  | .tool_end tool result (some sid) => handleToolEnd st sid tool result now
  | .done _ => markAllCompleted now st
  | _ => (st, [])

/-! ## Heuristic output adapter (src/chat/opencodeAdapter.ts)

The detectors embed the source's regular expressions over the character
list of the line. JavaScript specifics carried over: the whitespace class
`\s`, the word class `\w`, ASCII case folding for the `i` flag (all the
literals involved are ASCII), and backtracking where the patterns need it.
-/

/-- Character class `\s` of JavaScript regular expressions (the practically
occurring members). -/
def isJsSpace (c : Char) : Bool :=
  c = ' ' ∨ c = '\t' ∨ c = '\n' ∨ c = '\r' ∨ c = '\x0b' ∨ c = '\x0c' ∨ c = ' '

/-- JavaScript `String.prototype.trim`: strip leading and trailing
whitespace (structurally, on the character list). -/
def jsTrim (s : String) : String :=
  String.mk (((s.data.dropWhile isJsSpace).reverse.dropWhile isJsSpace).reverse)

/-- Gate `line.startsWith("{")`, structurally. -/
def startsWithBrace (s : String) : Bool :=
  match s.data with
  | c :: _ => c = '\x7b'
  | [] => false

/-- Character class `\w`: ASCII letters, digits and underscore. -/
def isJsWordChar (c : Char) : Bool :=
  c.isAlpha ∨ c.isDigit ∨ c = '_'

/-- Case-insensitive literal match: consume `w` (given lower-case) from the
front of `cs`, returning the rest. -/
def dropLitCI : List Char → List Char → Option (List Char)
  | cs, [] => some cs
  | [], _ :: _ => none
  | c :: cs, w :: ws => if c.toLower = w then dropLitCI cs ws else none

/-- Case-sensitive literal match. -/
def dropLitCS : List Char → List Char → Option (List Char)
  | cs, [] => some cs
  | [], _ :: _ => none
  | c :: cs, w :: ws => if c = w then dropLitCS cs ws else none

/-- Tail pattern `\s*(.+)$` shared by several detectors, on input without
line terminators: greedy `\s*`, backtracking one character when the
capture would otherwise be empty. -/
def matchTailCapture (cs : List Char) : Option (List Char) :=
  let t := cs.dropWhile isJsSpace
  if t ≠ [] then some t
  else (cs.getLast?).map (fun c => [c])

/-- Spinner glyph set of detectStatusLine's first pattern. -/
def spinnerChars : List Char :=
  ['⠋', '⠙', '⠹', '⠸', '⠼', '⠴', '⠦', '⠧', '⠇', '⠏',
   '◐', '◑', '◒', '◓', '⣾', '⣽', '⣻', '⢿', '⡿', '⣟', '⣯', '⣷']

/-- detectStatusLine: a spinner glyph or a case-insensitive status tag,
each followed by the captured message. -/
def detectStatusLine (line : String) : Option OpenCodeEvent :=
  let spinner :=
    match line.data with
    | c :: rest =>
        if spinnerChars.contains c then (matchTailCapture rest).map String.mk
        else none
    | [] => none
  match spinner with
  | some m => some (.status m "default")
  | none =>
      match dropLitCI line.data "[status]".data with
      | some rest => (matchTailCapture rest).map (fun m => .status (String.mk m) "default")
      | none => none

/-- Shared shape of the tool-call patterns: a case-insensitive verb with its
colon, then `\s*(.+)$`. -/
def verbCapture (cs : List Char) (verb : String) : Option String :=
  match dropLitCI cs verb.data with
  | some rest => (matchTailCapture rest).map String.mk
  | none => none

/-- detectToolCall: Running/Executing map to a shell call, Reading to a
file read, Editing/Writing to a file edit. -/
def detectToolCall (line : String) : Option OpenCodeEvent :=
  let cs := line.data
  match verbCapture cs "running:" with
  | some m => some (.tool_start "shell" [("command", m)] none)
  | none =>
  match verbCapture cs "executing:" with
  | some m => some (.tool_start "shell" [("command", m)] none)
  | none =>
  match verbCapture cs "reading:" with
  | some m => some (.tool_start "file_read" [("path", m)] none)
  | none =>
  match verbCapture cs "editing:" with
  | some m => some (.tool_start "file_edit" [("path", m)] none)
  | none =>
      (verbCapture cs "writing:").map (fun m => .tool_start "file_edit" [("path", m)] none)

/-- The bracketed tag `\[agent:([\w-]+)\]` opening both subagent patterns:
the captured id (case preserved) and the rest of the line. -/
def agentTag (cs : List Char) : Option (String × List Char) :=
  match dropLitCI cs "[agent:".data with
  | some rest =>
      let idChars := rest.takeWhile (fun c => isJsWordChar c ∨ c = '-')
      match rest.drop idChars.length with
      | ']' :: rest' => if idChars ≠ [] then some (String.mk idChars, rest') else none
      | _ => none
  | none => none

/-- Lazy capture `(.+?)\.{0,3}$`: strip up to three trailing dots but keep
at least one captured character. -/
def lazyCaptureDots (cs : List Char) : Option String :=
  if cs = [] then none
  else
    let trailing := (cs.reverse.takeWhile (fun c => c = '.')).length
    let k := min 3 (min trailing (cs.length - 1))
    some (String.mk (cs.take (cs.length - k)))

/-- Tail of the subagent-start pattern after the tag:
`\s*(?:Starting|Spawning)\s+(.+?)\.{0,3}$` (the `\s+` backtracks to a
single-space capture when only whitespace follows the verb). -/
def subagentStartTail (rest : List Char) : Option String :=
  let r1 := rest.dropWhile isJsSpace
  let afterVerb :=
    match dropLitCI r1 "starting".data with
    | some r2 => some r2
    | none => dropLitCI r1 "spawning".data
  match afterVerb with
  | some (c :: r2) =>
      if isJsSpace c then
        let r3 := (c :: r2).dropWhile isJsSpace
        if r3 = [] then some " " else lazyCaptureDots r3
      else none
  | _ => none

/-- Tail of the subagent-end pattern after the tag:
`\s*(Completed|Failed|Cancelled)` with no end anchor; the source lowercases
the captured verb before storing it. -/
def subagentEndTail (rest : List Char) : Option EndStatus :=
  let r1 := rest.dropWhile isJsSpace
  if (dropLitCI r1 "completed".data).isSome then some .completed
  else if (dropLitCI r1 "failed".data).isSome then some .failed
  else if (dropLitCI r1 "cancelled".data).isSome then some .cancelled
  else none

/-- detectSubagent: the start pattern is tried first, then the end pattern,
as in the source. -/
def detectSubagent (line : String) : Option OpenCodeEvent :=
  match agentTag line.data with
  | some (id, rest) =>
      match subagentStartTail rest with
      | some name => some (.subagent_start id name "default")
      | none => (subagentEndTail rest).map (fun es => .subagent_end id es)
  | none => none

/-- detectCompletion: `^(?:Done|Finished|Complete)[.!]?\s*$` (case
insensitive). -/
def detectCompletion (line : String) : Option OpenCodeEvent :=
  let cs := line.data
  let afterWord :=
    match dropLitCI cs "done".data with
    | some r => some r
    | none =>
        match dropLitCI cs "finished".data with
        | some r => some r
        | none => dropLitCI cs "complete".data
  match afterWord with
  | some rest =>
      let rest' :=
        match rest with
        | c :: rs => if c = '.' ∨ c = '!' then rs else rest
        | [] => []
      if rest'.all isJsSpace then some (.done "default") else none
  | none => none

/-- detectError: `^(?:Error|ERROR|error):\s*(.+)$`, case sensitive. -/
def detectError (line : String) : Option OpenCodeEvent :=
  let cs := line.data
  let afterWord :=
    match dropLitCS cs "Error:".data with
    | some r => some r
    | none =>
        match dropLitCS cs "ERROR:".data with
        | some r => some r
        | none => dropLitCS cs "error:".data
  match afterWord with
  | some rest => (matchTailCapture rest).map (fun m => .error (String.mk m))
  | none => none

/-- Adapter state: the pending text buffer (the flush timer cannot fire
between synchronously processed lines, so it is represented by flushing at
disposal). -/
structure AdapterState where
  textBuffer : String := ""
deriving Repr, DecidableEq

/-- What one processLine call produced: the new state, the events fired on
the subscription stream in order, and the returned value. -/
structure LineResult where
  state : AdapterState
  emitted : List OpenCodeEvent
  ret : Option OpenCodeEvent
deriving Repr, DecidableEq

/-- flushText: emit the pending buffer as a text event and clear it; a no-op
on an empty buffer. -/
def flushText (st : AdapterState) : AdapterState × List OpenCodeEvent :=
  if st.textBuffer ≠ "" then (⟨""⟩, [.text st.textBuffer "default"]) else (st, [])

/-- accumulateText: newline-join the line onto the pending buffer. -/
def accumulateText (st : AdapterState) (line : String) : AdapterState :=
  ⟨if st.textBuffer = "" then line else st.textBuffer ++ "\n" ++ line⟩

/-- Gate of tryParseJson: only lines opening a JSON object reach the parse;
`parseJson` stands for `JSON.parse` plus the string-type-tag check. -/
def tryParseJson (parseJson : String → Option OpenCodeEvent) (line : String) :
    Option OpenCodeEvent :=
  if startsWithBrace line then parseJson line else none

/-- The detector cascade of processLine, in source order: JSON, status,
tool, subagent, completion, error. -/
def detectLine (parseJson : String → Option OpenCodeEvent) (line : String) :
    Option OpenCodeEvent :=
  match tryParseJson parseJson line with
  | some ev => some ev
  | none =>
  match detectStatusLine line with
  | some ev => some ev
  | none =>
  match detectToolCall line with
  | some ev => some ev
  | none =>
  match detectSubagent line with
  | some ev => some ev
  | none =>
  match detectCompletion line with
  | some ev => some ev
  | none => detectError line

/-- processLine: trim; drop empty lines; on the first successful detection
flush the pending buffer, fire and return the event; otherwise accumulate
the line as text and return null. -/
def processLine (parseJson : String → Option OpenCodeEvent) (st : AdapterState)
    (raw : String) : LineResult :=
  let line := (jsTrim raw)
  if line = "" then ⟨st, [], none⟩
  else
    match detectLine parseJson line with
    | some ev =>
        let f := flushText st
        ⟨f.1, f.2 ++ [ev], some ev⟩
    | none => ⟨accumulateText st line, [], none⟩

/-- Drive the adapter over a list of lines, collecting the stream events. -/
def runLines (parseJson : String → Option OpenCodeEvent) (st : AdapterState) :
    List String → AdapterState × List OpenCodeEvent
  | [] => (st, [])
  | l :: ls =>
      let r := processLine parseJson st l
      let rest := runLines parseJson r.state ls
      (rest.1, r.emitted ++ rest.2)

/-- dispose: the final synchronous flush of the pending buffer. -/
def disposeAdapter (st : AdapterState) : List OpenCodeEvent :=
  (flushText st).2

/-- A whole adapter run from a fresh state through disposal. -/
def runAndDispose (parseJson : String → Option OpenCodeEvent)
    (lines : List String) : List OpenCodeEvent :=
  let r := runLines parseJson ⟨""⟩ lines
  r.2 ++ disposeAdapter r.1

/-- Count of input lines that match a structured detector (after the trim,
skipping lines that trim to nothing). -/
def matchedCount (parseJson : String → Option OpenCodeEvent)
    (lines : List String) : Nat :=
  lines.countP (fun l => (jsTrim l) ≠ "" ∧ (detectLine parseJson (jsTrim l)).isSome)

/-- Count of flush points at which a non-empty buffer was pending: one per
structured detection arriving on a non-empty buffer, plus one at disposal
when the final buffer is non-empty. Tracks only the emptiness bit of the
buffer, as the claim's accounting does. -/
def flushCount (parseJson : String → Option OpenCodeEvent) :
    Bool → List String → Nat
  | buf, [] => if buf then 1 else 0
  | buf, l :: ls =>
      if (jsTrim l) = "" then flushCount parseJson buf ls
      else
        match detectLine parseJson (jsTrim l) with
        | some _ => (if buf then 1 else 0) + flushCount parseJson false ls
        | none => flushCount parseJson true ls

/-! ## Process bridge (OpenCodeBridge) -/

/-- BridgeState of the bridge: idle, busy, error, stopped. -/
inductive BridgeState where
  | idle
  | busy
  | error
  | stopped
deriving Repr, DecidableEq

/-- An NDJSON object from the process's stdout after `JSON.parse`, with the
fields mapEvent reads; an absent or non-string field is `none`. -/
structure RawEvent where
  type : String
  text : Option String := none
  content : Option String := none
  message : Option String := none
  agent : Option String := none
  tool : Option String := none
  name : Option String := none
  args : Option ToolArgs := none
  result : Option String := none
  subagentId : Option String := none
  id : Option String := none
  parent : Option String := none
  status : Option String := none
deriving Repr, DecidableEq

/-- Status decode of the subagent_end mapping (the source casts the string
with "completed" as the `??` default; an unlisted string passes the TS cast
unchecked and is represented by the default here). -/
def endStatusOfString (s : String) : EndStatus :=
  if s = "failed" then .failed
  else if s = "cancelled" then .cancelled
  else .completed

/-- mapEvent of OpenCodeBridge: normalise a native NDJSON object to the
OpenCodeEvent schema; step_start becomes a status, step_finish a done, and
an unknown tag with a text-like field becomes a text event. -/
def mapEvent (raw : RawEvent) : Option OpenCodeEvent :=
  if raw.type = "text" then
    some (.text ((raw.text <|> raw.content).getD "") (raw.agent.getD "default"))
  else if raw.type = "status" then
    some (.status (raw.message.getD "") (raw.agent.getD "default"))
  else if raw.type = "done" then
    some (.done (raw.agent.getD "default"))
  else if raw.type = "error" then
    some (.error (raw.message.getD "Unknown error"))
  else if raw.type = "tool_start" then
    some (.tool_start ((raw.tool <|> raw.name).getD "unknown") (raw.args.getD [])
      raw.subagentId)
  else if raw.type = "tool_end" then
    some (.tool_end ((raw.tool <|> raw.name).getD "unknown") (raw.result.getD "")
      raw.subagentId)
  else if raw.type = "subagent_start" then
    some (.subagent_start (raw.id.getD "") (raw.name.getD "") (raw.parent.getD "default"))
  else if raw.type = "subagent_end" then
    some (.subagent_end (raw.id.getD "") (endStatusOfString (raw.status.getD "completed")))
  else if raw.type = "step_start" then
    some (.status (raw.message.getD "Processing...") (raw.agent.getD "default"))
  else if raw.type = "step_finish" then
    some (.done (raw.agent.getD "default"))
  else
    match raw.text with
    | some t => some (.text t "default")
    | none =>
        match raw.content with
        | some c => some (.text c "default")
        | none => none

/-- Discriminates done events (the check `event.type === "done"`). -/
def isDoneEvent : OpenCodeEvent → Bool
  | .done _ => true
  | _ => false

/-- Number of done events in an emitted stream. -/
def countDone (evs : List OpenCodeEvent) : Nat :=
  (evs.filter isDoneEvent).length

/-- The bridge state the stdout handler can touch: its state machine and
the fallback adapter it owns. -/
structure BridgeSt where
  bstate : BridgeState
  adapter : AdapterState
deriving Repr, DecidableEq

/-- The fall-through of handleStdoutLine: hand the trimmed line to the
owned adapter, whose stream events the bridge forwards. -/
def adapterFallback (parseJson : String → Option OpenCodeEvent) (b : BridgeSt)
    (trimmed : String) : BridgeSt × List OpenCodeEvent :=
  let r := processLine parseJson b.adapter trimmed
  ({ b with adapter := r.state }, r.emitted)

/-- handleStdoutLine of OpenCodeBridge: skip blank lines; on a line opening
a JSON object, parse it (`parseRaw` stands for `JSON.parse` plus the
string-type check) and map it; a mapped done event settles the state to
idle before being fired; unparsed or unmapped lines fall through to the
heuristic adapter. -/
def handleStdoutLine (parseRaw : String → Option RawEvent)
    (parseJson : String → Option OpenCodeEvent) (b : BridgeSt) (line : String) :
    BridgeSt × List OpenCodeEvent :=
  let trimmed := (jsTrim line)
  if trimmed = "" then (b, [])
  else
    match (if startsWithBrace trimmed then parseRaw trimmed else none) with
    | some raw =>
        match mapEvent raw with
        | some ev =>
            ({ b with bstate := if isDoneEvent ev then .idle else b.bstate }, [ev])
        | none => adapterFallback parseJson b trimmed
    | none => adapterFallback parseJson b trimmed

/-- handleExit of OpenCodeBridge: on exit code 0 or null, synthesize a done
only when still busy and settle to idle; on a non-zero code, emit an error
describing the code and still settle to idle. -/
def handleExit (s : BridgeState) (code : Option Int) :
    BridgeState × List OpenCodeEvent :=
  match code with
  | none => (.idle, if s = .busy then [.done "default"] else [])
  | some c =>
      if c = 0 then (.idle, if s = .busy then [.done "default"] else [])
      else (.idle, [.error ("OpenCode exited with code " ++ toString c)])

/-- isRunning: prepared (idle) or processing (busy). -/
def isRunning (s : BridgeState) : Bool :=
  match s with
  | .idle => true
  | .busy => true
  | _ => false

/-- isStderrError of OpenCodeBridge:
`/^(?:Error|ERROR|FATAL|fatal|panic|PANIC|Traceback)[\s:]/i` — with the `i`
flag the alternation collapses to four case-insensitive words, each
followed by a whitespace or a colon. -/
def isStderrError (line : String) : Bool :=
  [("error" : String), "fatal", "panic", "traceback"].any fun w =>
    match dropLitCI line.data w.data with
    | some (c :: _) => isJsSpace c ∨ c = ':'
    | _ => false

/-- handleStderr of OpenCodeBridge: a non-empty trimmed chunk emits one
event — an error when it looks like a genuine error, otherwise a status
attributed to the system agent. -/
def handleStderr (data : String) : List OpenCodeEvent :=
  let trimmed := (jsTrim data)
  if trimmed = "" then []
  else if isStderrError trimmed then [.error trimmed]
  else [.status trimmed "system"]

/-- The claim's seven severity prefixes, as written. -/
def severityWords : List String :=
  ["Error", "ERROR", "FATAL", "fatal", "panic", "PANIC", "Traceback"]

/-- Modelled from the claim's words, for comparison with `isStderrError`:
a "severity-prefix pattern anchored at line start
(Error/ERROR/FATAL/fatal/panic/PANIC/Traceback)" — the listed words as
literal line prefixes, nothing about case folding or a delimiter. -/
def claimSeverityMatch (line : String) : Bool :=
  severityWords.any (fun w => (dropLitCS line.data w.data).isSome)

/-- The amended severity pattern: the listed words matched case
insensitively at line start, each followed immediately by a whitespace or
colon character. -/
def amendedSeverityMatch (line : String) : Bool :=
  severityWords.any fun w =>
    match dropLitCI line.data (w.data.map Char.toLower) with
    | some (c :: _) => isJsSpace c ∨ c = ':'
    | _ => false

/-! ## Helper lemmas -/

/-- A flush always leaves the buffer empty. -/
lemma flushText_fst (st : AdapterState) : (flushText st).1 = ⟨""⟩ := by
  cases st with
  | mk tb => by_cases h : tb = "" <;> simp [flushText, h]

/-- A flush emits one text event on a non-empty buffer, none otherwise. -/
lemma flushText_snd (st : AdapterState) :
    (flushText st).2 = if st.textBuffer = "" then [] else [.text st.textBuffer "default"] := by
  by_cases h : st.textBuffer = "" <;> simp [flushText, h]

/-- processLine on a line that trims to nothing. -/
lemma processLine_empty (p : String → Option OpenCodeEvent) (st : AdapterState)
    (raw : String) (h : (jsTrim raw) = "") : processLine p st raw = ⟨st, [], none⟩ := by
  simp [processLine, h]

/-- processLine on a detected line: flush, then fire and return the event. -/
lemma processLine_detected (p : String → Option OpenCodeEvent) (st : AdapterState)
    (raw : String) (ev : OpenCodeEvent) (h : (jsTrim raw) ≠ "")
    (hd : detectLine p (jsTrim raw) = some ev) :
    processLine p st raw = ⟨⟨""⟩, (flushText st).2 ++ [ev], some ev⟩ := by
  simp [processLine, h, hd, flushText_fst]

/-- processLine on an undetected line: accumulate, emit nothing, return null. -/
lemma processLine_unmatched (p : String → Option OpenCodeEvent) (st : AdapterState)
    (raw : String) (h : (jsTrim raw) ≠ "") (hd : detectLine p (jsTrim raw) = none) :
    processLine p st raw = ⟨accumulateText st (jsTrim raw), [], none⟩ := by
  simp [processLine, h, hd]

/-- Accumulating a non-empty line leaves a non-empty buffer. -/
lemma accumulateText_ne (st : AdapterState) (line : String) (h : line ≠ "") :
    (accumulateText st line).textBuffer ≠ "" := by
  simp only [accumulateText]
  by_cases hb : st.textBuffer = ""
  · simpa [hb] using h
  · rw [if_neg hb]
    intro heq
    have hlen : (st.textBuffer ++ "\n" ++ line).length = (0 : Nat) := by
      rw [heq]; rfl
    rw [String.length_append, String.length_append] at hlen
    have hone : ("\n" : String).length = 1 := rfl
    omega

/-- The completion scan leaves a block with no open call of the tool
untouched and continues past it. -/
lemma completeFirstOpenRev_skips (tool result : String) (now : Nat)
    (l rest : List ToolCallInfo)
    (h : ∀ t ∈ l, ¬(t.tool = tool ∧ t.completedAt = none)) :
    completeFirstOpenRev tool result now (l ++ rest)
      = l ++ completeFirstOpenRev tool result now rest := by
  induction l with
  | nil => simp
  | cons a l ih =>
      have ha : ¬(a.tool = tool ∧ a.completedAt = none) := h a (by simp)
      simp [completeFirstOpenRev, ha, ih (fun t ht => h t (by simp [ht]))]

/-- completeLastOpen at a decomposition whose last open matching call is
`tc`: only `tc` changes. -/
lemma completeLastOpen_split (tool result : String) (now : Nat)
    (pre post : List ToolCallInfo) (tc : ToolCallInfo)
    (htool : tc.tool = tool) (hopen : tc.completedAt = none)
    (hpost : ∀ t ∈ post, ¬(t.tool = tool ∧ t.completedAt = none)) :
    completeLastOpen tool result now (pre ++ tc :: post)
      = pre ++ { tc with result := some result, completedAt := some now } :: post := by
  unfold completeLastOpen
  have hrev : (pre ++ tc :: post).reverse = post.reverse ++ tc :: pre.reverse := by
    simp
  rw [hrev, completeFirstOpenRev_skips tool result now post.reverse _
        (fun t ht => hpost t (List.mem_reverse.mp ht))]
  have hstep : completeFirstOpenRev tool result now (tc :: pre.reverse)
      = { tc with result := some result, completedAt := some now } :: pre.reverse := by
    simp [completeFirstOpenRev, htool, hopen]
  rw [hstep]
  simp

/-- completeLastOpen is the identity when no call matches. -/
lemma completeLastOpen_no_match (tool result : String) (now : Nat)
    (calls : List ToolCallInfo)
    (h : ∀ t ∈ calls, ¬(t.tool = tool ∧ t.completedAt = none)) :
    completeLastOpen tool result now calls = calls := by
  unfold completeLastOpen
  have hskip := completeFirstOpenRev_skips tool result now calls.reverse []
    (fun t ht => h t (List.mem_reverse.mp ht))
  simp only [List.append_nil] at hskip
  rw [hskip]
  simp [completeFirstOpenRev]

/-- The amended severity pattern coincides with the source's
case-insensitive regex. -/
lemma amendedSeverityMatch_eq (line : String) :
    amendedSeverityMatch line = isStderrError line := by
  have h1 : "Error".data.map Char.toLower = "error".data := by decide
  have h2 : "ERROR".data.map Char.toLower = "error".data := by decide
  have h3 : "FATAL".data.map Char.toLower = "fatal".data := by decide
  have h4 : "fatal".data.map Char.toLower = "fatal".data := by decide
  have h5 : "panic".data.map Char.toLower = "panic".data := by decide
  have h6 : "PANIC".data.map Char.toLower = "panic".data := by decide
  have h7 : "Traceback".data.map Char.toLower = "traceback".data := by decide
  simp [amendedSeverityMatch, isStderrError, severityWords,
    h1, h2, h3, h4, h5, h6, h7, Bool.or_assoc, Bool.or_self_left]

/-! ## Claim theorems -/

/-- Claim C8, counterexample: the claim says parsing "splits on the first
slash into provider and model" for every model string, but on "/gpt-4"
(first slash at position 0) the code does not split — it falls to the
unknown-provider branch, unlike the claim's split. -/
theorem parseModelString_counterexample :
    parseModelString "/gpt-4" = ⟨"unknown", "/gpt-4"⟩
    ∧ claimSplitModel "/gpt-4" = ⟨"", "gpt-4"⟩
    ∧ parseModelString "/gpt-4" ≠ claimSplitModel "/gpt-4" := by
  refine ⟨by decide, by decide, by decide⟩

/-- Claim C8 as amended: a model string splits on its first slash exactly
when that slash is at a positive index; a string with no slash, or whose
first slash is its first character, yields provider "unknown" with the
whole string as the model; "openai/gpt-4" and "gpt-4" parse as claimed. -/
theorem parseModelString_amended (raw : String) (i : Nat) :
    parseModelString "openai/gpt-4" = ⟨"openai", "gpt-4"⟩
    ∧ parseModelString "gpt-4" = ⟨"unknown", "gpt-4"⟩
    ∧ (raw.data.findIdx? (· = '/') = none → parseModelString raw = ⟨"unknown", raw⟩)
    ∧ (raw.data.findIdx? (· = '/') = some 0 → parseModelString raw = ⟨"unknown", raw⟩)
    ∧ (raw.data.findIdx? (· = '/') = some i → 0 < i →
        parseModelString raw
          = ⟨String.mk (raw.data.take i), String.mk (raw.data.drop (i + 1))⟩) := by
  refine ⟨by decide, by decide, ?_, ?_, ?_⟩
  · intro h; simp [parseModelString, h]
  · intro h; simp [parseModelString, h]
  · intro h hi; simp [parseModelString, h, Nat.pos_iff_ne_zero.mp hi, hi]

/-- Closed instance of the amended C8 theorem at "anthropic/claude": the
first slash sits at index 9, so the string splits there. -/
theorem parseModelString_amended_witness :
    parseModelString "anthropic/claude"
      = ⟨String.mk ("anthropic/claude".data.take 9),
         String.mk ("anthropic/claude".data.drop 10)⟩ :=
  (parseModelString_amended "anthropic/claude" 9).2.2.2.2 (by decide) (by decide)

/-- Claim C7, counterexample: the claim says the summary renderer formats a
sub-second elapsed duration as milliseconds; for a sub-task completed after
500 ms the renderer writes "0.5s", not "500ms" — the millisecond form
exists only in the tree view's formatDuration, not in
renderSubagentSummary. -/
theorem summary_duration_counterexample :
    durationOf ⟨"sa-1", "worker", "default", .completed, none, 0, some 500, []⟩ = "0.5s"
    ∧ claimSummaryDuration 500 = "500ms"
    ∧ durationOf ⟨"sa-1", "worker", "default", .completed, none, 0, some 500, []⟩
        ≠ claimSummaryDuration 500
    ∧ renderSummaryLine ⟨"sa-1", "worker", "default", .completed, none, 0, some 500, []⟩
        = "- $(testing-pass-icon) **worker** — completed (0.5s, 0 tool calls)" := by
  refine ⟨by decide, by decide, by decide, by decide⟩

/-- Claim C7 as amended: the summary renderer emits one line per tracked
sub-task carrying its status, its tool-call count, and its elapsed duration
formatted as seconds to one decimal place whenever a completion time is
set — also for sub-second durations — and the word "running" otherwise. -/
theorem summary_line_amended (sas : List SubagentInfo) (sa : SubagentInfo) (c : Nat) :
    renderSubagentSummary [] = []
    ∧ (sas ≠ [] → renderSubagentSummary sas
        = [String.intercalate "\n"
            ("\n---\n**Subagent summary:**\n" :: sas.map renderSummaryLine) ++ "\n"])
    ∧ (sa.completedAt = none → durationOf sa = "running")
    ∧ (sa.completedAt = some c → durationOf sa = jsToFixed1 (c - sa.startedAt) ++ "s")
    ∧ renderSummaryLine sa
        = "- $(testing-" ++ iconOf sa.status ++ "-icon) **" ++ sa.name ++ "** — "
            ++ statusText sa.status ++ " (" ++ durationOf sa ++ ", "
            ++ toString sa.toolCalls.length ++ " tool calls)" := by
  refine ⟨by simp [renderSubagentSummary], ?_, ?_, ?_, rfl⟩
  · intro h
    simp [renderSubagentSummary, List.length_eq_zero, h]
  · intro h; simp [durationOf, h]
  · intro h; simp [durationOf, h]

/-- Closed instance of the amended C7 theorem: a sub-task completed after
1500 ms renders with the duration "1.5s". -/
theorem summary_line_amended_witness :
    durationOf ⟨"sa-2", "planner", "default", .completed, none, 0, some 1500, []⟩
      = jsToFixed1 (1500 - 0) ++ "s" :=
  (summary_line_amended []
    ⟨"sa-2", "planner", "default", .completed, none, 0, some 1500, []⟩ 1500).2.2.2.1 rfl

/-- Claim C6: a non-zero exit code makes the bridge emit one error event
naming the code and settle to idle — a state in which isRunning still
holds, so the next prompt needs no fresh start(). -/
theorem nonzero_exit_settles_idle (s : BridgeState) (c : Int) (h : c ≠ 0) :
    handleExit s (some c)
      = (.idle, [.error ("OpenCode exited with code " ++ toString c)])
    ∧ isRunning (handleExit s (some c)).1 = true := by
  constructor
  · simp [handleExit, h]
  · simp [handleExit, h, isRunning]

/-- Closed instance of C6 at exit code 1 from the busy state. -/
theorem nonzero_exit_settles_idle_witness :
    handleExit .busy (some 1)
      = (.idle, [.error ("OpenCode exited with code " ++ toString (1 : Int))])
    ∧ isRunning (handleExit .busy (some 1)).1 = true :=
  nonzero_exit_settles_idle .busy 1 (by decide)

/-- Claim C5, counterexample: the claim reads stderr classification off the
literal prefix list Error/ERROR/FATAL/fatal/panic/PANIC/Traceback anchored
at line start. "Errors found" starts with the listed "Error" yet the code
emits a status event (the regex also requires a whitespace or colon after
the word), and "error: disk full" starts with none of the listed forms yet
the code emits an error event (the regex is case-insensitive). -/
theorem stderr_classification_counterexample :
    claimSeverityMatch "Errors found" = true
    ∧ handleStderr "Errors found" = [.status "Errors found" "system"]
    ∧ claimSeverityMatch "error: disk full" = false
    ∧ handleStderr "error: disk full" = [.error "error: disk full"] := by
  refine ⟨by decide, by decide, by decide, by decide⟩

/-- Claim C5 as amended: a non-empty trimmed stderr line emits exactly one
event; it is an error carrying the line when the line starts with one of
the listed severity words matched case-insensitively and followed by a
whitespace or colon, and otherwise a status carrying the line with the
distinguished agent "system". -/
theorem stderr_classification_amended (data : String) (h : (jsTrim data) ≠ "") :
    handleStderr data
      = (if amendedSeverityMatch (jsTrim data) then [.error (jsTrim data)]
         else [.status (jsTrim data) "system"]) := by
  simp only [handleStderr, if_neg h, amendedSeverityMatch_eq]

/-- Closed instance of the amended C5 theorem on the spec's two scenario
lines. -/
theorem stderr_classification_amended_witness :
    handleStderr "Error: disk full" = [.error "Error: disk full"]
    ∧ handleStderr "Loading cache..." = [.status "Loading cache..." "system"] := by
  constructor
  · rw [stderr_classification_amended "Error: disk full" (by decide)]; decide
  · rw [stderr_classification_amended "Loading cache..." (by decide)]; decide

/-- Claim C2: a tool_end for a known sub-task completes exactly the most
recent (last-appended, hence most recently started) tool call of the same
tool name that has no completedAt — setting its result and completion time
— and leaves every earlier call, open or not, untouched; the sub-task's
currentTool is cleared and one change is fired. -/
theorem toolEnd_matches_most_recent_open
    (st : TrackerState) (sid tool result : String) (now : Nat)
    (info : SubagentInfo) (pre post : List ToolCallInfo) (tc : ToolCallInfo)
    (hget : mapGet st sid = some info)
    (hsplit : info.toolCalls = pre ++ tc :: post)
    (htool : tc.tool = tool)
    (hopen : tc.completedAt = none)
    (hpost : ∀ t ∈ post, ¬(t.tool = tool ∧ t.completedAt = none)) :
    handleToolEnd st sid tool result now
      = (mapSet st sid
          { info with
              toolCalls := pre
                ++ { tc with result := some result, completedAt := some now } :: post,
              currentTool := none },
         [{ info with
              toolCalls := pre
                ++ { tc with result := some result, completedAt := some now } :: post,
              currentTool := none }]) := by
  simp only [handleToolEnd, hget, hsplit,
    completeLastOpen_split tool result now pre post tc htool hopen hpost]

/-- Closed instance of C2, the spec's two-starts-one-end scenario: two open
"shell" calls (started at 20 and 30); one tool_end at 40 completes the
second call and leaves the first call's completedAt unset. -/
theorem toolEnd_matches_most_recent_open_witness :
    handleToolEnd
      [("sa-1", ⟨"sa-1", "W", "default", .running, some "shell", 10, none,
        [⟨"shell", [], none, 20, none⟩, ⟨"shell", [], none, 30, none⟩]⟩)]
      "sa-1" "shell" "ok" 40
    = ([("sa-1", ⟨"sa-1", "W", "default", .running, none, 10, none,
        [⟨"shell", [], none, 20, none⟩, ⟨"shell", [], some "ok", 30, some 40⟩]⟩)],
       [⟨"sa-1", "W", "default", .running, none, 10, none,
        [⟨"shell", [], none, 20, none⟩, ⟨"shell", [], some "ok", 30, some 40⟩]⟩]) := by
  have h := toolEnd_matches_most_recent_open
    [("sa-1", ⟨"sa-1", "W", "default", .running, some "shell", 10, none,
      [⟨"shell", [], none, 20, none⟩, ⟨"shell", [], none, 30, none⟩]⟩)]
    "sa-1" "shell" "ok" 40
    ⟨"sa-1", "W", "default", .running, some "shell", 10, none,
      [⟨"shell", [], none, 20, none⟩, ⟨"shell", [], none, 30, none⟩]⟩
    [⟨"shell", [], none, 20, none⟩] [] ⟨"shell", [], none, 30, none⟩
    (by decide) rfl rfl rfl (by simp)
  exact h.trans (by decide)

/-- Claim C10: a tool_end naming a known sub-task with no matching open
call of that tool leaves the toolCalls list entirely unchanged, yet still
clears currentTool and still fires one change for that sub-task. -/
theorem toolEnd_no_match_keeps_calls
    (st : TrackerState) (sid tool result : String) (now : Nat)
    (info : SubagentInfo)
    (hget : mapGet st sid = some info)
    (hnone : ∀ t ∈ info.toolCalls, ¬(t.tool = tool ∧ t.completedAt = none)) :
    handleToolEnd st sid tool result now
      = (mapSet st sid { info with currentTool := none },
         [{ info with currentTool := none }]) := by
  simp only [handleToolEnd, hget,
    completeLastOpen_no_match tool result now info.toolCalls hnone]

/-- Closed instance of C10: the only call of "shell" is already completed,
so a further tool_end for "shell" changes no call, clears currentTool and
fires one change. -/
theorem toolEnd_no_match_keeps_calls_witness :
    handleToolEnd
      [("sa-1", ⟨"sa-1", "W", "default", .running, some "shell", 10, none,
        [⟨"shell", [], some "done", 20, some 30⟩]⟩)]
      "sa-1" "shell" "late" 40
    = ([("sa-1", ⟨"sa-1", "W", "default", .running, none, 10, none,
        [⟨"shell", [], some "done", 20, some 30⟩]⟩)],
       [⟨"sa-1", "W", "default", .running, none, 10, none,
        [⟨"shell", [], some "done", 20, some 30⟩]⟩]) := by
  have h := toolEnd_no_match_keeps_calls
    [("sa-1", ⟨"sa-1", "W", "default", .running, some "shell", 10, none,
      [⟨"shell", [], some "done", 20, some 30⟩]⟩)]
    "sa-1" "shell" "late" 40
    ⟨"sa-1", "W", "default", .running, some "shell", 10, none,
      [⟨"shell", [], some "done", 20, some 30⟩]⟩
    (by decide) (by decide)
  exact h.trans (by decide)

/-- Claim C3: a done event makes every running sub-task completed (gaining
the completion time), and leaves every sub-task already in a terminal
status — completed, failed or cancelled — with its status and completion
time (indeed its whole record) unchanged, position by position. -/
theorem done_finalizes_running (st : TrackerState) (now : Nat) :
    List.Forall₂ (fun p q =>
        q.1 = p.1
        ∧ (p.2.status = .running →
            q.2 = { p.2 with status := .completed, completedAt := some now,
                             currentTool := none })
        ∧ (p.2.status ≠ .running → q.2 = p.2))
      st (markAllCompleted now st).1 := by
  induction st with
  | nil => simp [markAllCompleted]
  | cons p rest ih =>
      obtain ⟨k, info⟩ := p
      by_cases h : info.status = .running
      · have heq : (markAllCompleted now ((k, info) :: rest)).1
            = (k, { info with status := .completed, completedAt := some now,
                              currentTool := none }) :: (markAllCompleted now rest).1 := by
          simp [markAllCompleted, h]
        rw [heq]
        exact List.Forall₂.cons ⟨rfl, fun _ => rfl, fun hn => absurd h hn⟩ ih
      · have heq : (markAllCompleted now ((k, info) :: rest)).1
            = (k, info) :: (markAllCompleted now rest).1 := by
          simp [markAllCompleted, h]
        rw [heq]
        exact List.Forall₂.cons ⟨rfl, fun hr => absurd hr h, fun _ => rfl⟩ ih

/-- Closed instance of C3: one running and one failed sub-task; the done
event completes the former and leaves the latter untouched. -/
theorem done_finalizes_running_witness :
    List.Forall₂ (fun p q =>
        q.1 = p.1
        ∧ (p.2.status = .running →
            q.2 = { p.2 with status := .completed, completedAt := some 99,
                             currentTool := none })
        ∧ (p.2.status ≠ .running → q.2 = p.2))
      [("a", ⟨"a", "A", "default", .running, some "shell", 1, none, []⟩),
       ("b", ⟨"b", "B", "default", .failed, none, 2, some 5, []⟩)]
      (markAllCompleted 99
        [("a", ⟨"a", "A", "default", .running, some "shell", 1, none, []⟩),
         ("b", ⟨"b", "B", "default", .failed, none, 2, some 5, []⟩)]).1 :=
  done_finalizes_running
    [("a", ⟨"a", "A", "default", .running, some "shell", 1, none, []⟩),
     ("b", ⟨"b", "B", "default", .failed, none, 2, some 5, []⟩)] 99

/-- Claim C1: a native step_finish (or done) line arriving while the bridge
is busy makes it emit exactly one done event and settle to idle; the
subsequent exit with code 0 or null then emits no second done and stays
idle. Conversely, an exit with code 0 or null while still busy synthesizes
exactly one done and settles to idle. -/
theorem bridge_done_emitted_once
    (parseRaw : String → Option RawEvent) (parseJson : String → Option OpenCodeEvent)
    (b : BridgeSt) (line : String) (raw : RawEvent) (code : Option Int)
    (_hbusy : b.bstate = .busy)
    (htrim : jsTrim line ≠ "")
    (hbrace : startsWithBrace (jsTrim line) = true)
    (hparse : parseRaw (jsTrim line) = some raw)
    (hty : raw.type = "step_finish" ∨ raw.type = "done")
    (hcode : code = some 0 ∨ code = none) :
    (handleStdoutLine parseRaw parseJson b line).1.bstate = .idle
    ∧ (handleStdoutLine parseRaw parseJson b line).2
        = [.done (raw.agent.getD "default")]
    ∧ handleExit (handleStdoutLine parseRaw parseJson b line).1.bstate code
        = (.idle, [])
    ∧ countDone ((handleStdoutLine parseRaw parseJson b line).2
        ++ (handleExit (handleStdoutLine parseRaw parseJson b line).1.bstate code).2)
        = 1
    ∧ handleExit .busy code = (.idle, [.done "default"])
    ∧ countDone (handleExit .busy code).2 = 1 := by
  have hmap : mapEvent raw = some (.done (raw.agent.getD "default")) := by
    rcases hty with h | h <;> simp [mapEvent, h]
  have hline : handleStdoutLine parseRaw parseJson b line
      = ({ b with bstate := .idle }, [.done (raw.agent.getD "default")]) := by
    simp [handleStdoutLine, htrim, hbrace, hparse, hmap, isDoneEvent]
  rcases hcode with hc | hc <;>
    simp [hline, hc, handleExit, countDone, isDoneEvent]

/-- Closed instance of C1: the literal step_finish NDJSON line followed by
an exit with code 0, from the busy state, yields exactly one done event. -/
theorem bridge_done_emitted_once_witness :
    countDone
      ((handleStdoutLine
          (fun s => if s = "\x7b\"type\":\"step_finish\"\x7d" then
            some ⟨"step_finish", none, none, none, none, none, none, none, none,
              none, none, none, none⟩ else none)
          (fun _ => none) ⟨.busy, ⟨""⟩⟩ "\x7b\"type\":\"step_finish\"\x7d").2
        ++ (handleExit
            (handleStdoutLine
              (fun s => if s = "\x7b\"type\":\"step_finish\"\x7d" then
                some ⟨"step_finish", none, none, none, none, none, none, none, none,
                  none, none, none, none⟩ else none)
              (fun _ => none) ⟨.busy, ⟨""⟩⟩
              "\x7b\"type\":\"step_finish\"\x7d").1.bstate (some 0)).2) = 1 :=
  (bridge_done_emitted_once
    (fun s => if s = "\x7b\"type\":\"step_finish\"\x7d" then
      some ⟨"step_finish", none, none, none, none, none, none, none, none,
        none, none, none, none⟩ else none)
    (fun _ => none) ⟨.busy, ⟨""⟩⟩ "\x7b\"type\":\"step_finish\"\x7d"
    ⟨"step_finish", none, none, none, none, none, none, none, none,
      none, none, none, none⟩ (some 0)
    rfl (by decide) (by decide) (by decide) (Or.inl rfl) (Or.inl rfl)).2.2.2.1

/-- The event-count accounting of a run from any buffer state: stream
events so far plus the disposal flush equal the structured matches plus
one text event per flush point that found a non-empty buffer. -/
lemma runLines_accounting (p : String → Option OpenCodeEvent) (lines : List String) :
    ∀ st : AdapterState,
      (runLines p st lines).2.length + (disposeAdapter (runLines p st lines).1).length
        = matchedCount p lines + flushCount p (st.textBuffer != "") lines := by
  induction lines with
  | nil =>
      intro st
      by_cases h : st.textBuffer = "" <;>
        simp [runLines, disposeAdapter, flushText, matchedCount, flushCount, h]
  | cons l ls ih =>
      intro st
      by_cases h : jsTrim l = ""
      · have hr : processLine p st l = ⟨st, [], none⟩ := processLine_empty p st l h
        have hm : matchedCount p (l :: ls) = matchedCount p ls := by
          simp [matchedCount, List.countP_cons, h]
        have hf : flushCount p (st.textBuffer != "") (l :: ls)
            = flushCount p (st.textBuffer != "") ls := by
          simp [flushCount, h]
        simp only [runLines, hr, List.nil_append, hm, hf]
        exact ih st
      · cases hd : detectLine p (jsTrim l) with
        | some ev =>
            have hr : processLine p st l = ⟨⟨""⟩, (flushText st).2 ++ [ev], some ev⟩ :=
              processLine_detected p st l ev h hd
            have hm : matchedCount p (l :: ls) = matchedCount p ls + 1 := by
              simp [matchedCount, List.countP_cons, h, hd]
            have hf : flushCount p (st.textBuffer != "") (l :: ls)
                = (if st.textBuffer != "" then 1 else 0) + flushCount p false ls := by
              simp [flushCount, h, hd]
            have hih := ih ⟨""⟩
            simp only [runLines, hr, hm, hf]
            rw [flushText_snd]
            by_cases hb : st.textBuffer = "" <;>
              simp only [hb, if_pos rfl, bne_self_eq_false, if_neg, List.nil_append,
                List.length_append, List.length_cons, List.length_nil,
                List.append_assoc, List.cons_append, List.singleton_append] <;>
              simp [hb, List.length_append] at hih ⊢ <;>
              omega
        | none =>
            have hr : processLine p st l = ⟨accumulateText st (jsTrim l), [], none⟩ :=
              processLine_unmatched p st l h hd
            have hm : matchedCount p (l :: ls) = matchedCount p ls := by
              simp [matchedCount, List.countP_cons, hd]
            have hf : flushCount p (st.textBuffer != "") (l :: ls)
                = flushCount p true ls := by
              simp [flushCount, h, hd]
            have hacc : ((accumulateText st (jsTrim l)).textBuffer != "") = true := by
              simpa [bne_iff_ne] using accumulateText_ne st (jsTrim l) h
            have hih := ih (accumulateText st (jsTrim l))
            rw [hacc] at hih
            simp only [runLines, hr, List.nil_append, hm, hf]
            exact hih

/-- Claim C4: over any processLine sequence, the events on the adapter's
stream number exactly the structured matches plus one text event per flush
point (a detection arriving on a non-empty buffer, or disposal with a
non-empty buffer); and a detection arriving on a non-empty buffer emits
the flushed text event strictly before the structured event. -/
theorem adapter_event_accounting (p : String → Option OpenCodeEvent)
    (lines : List String) (st : AdapterState) (raw : String) :
    (runAndDispose p lines).length = matchedCount p lines + flushCount p false lines
    ∧ (∀ ev, jsTrim raw ≠ "" → detectLine p (jsTrim raw) = some ev →
        st.textBuffer ≠ "" →
        (processLine p st raw).emitted = [.text st.textBuffer "default", ev]) := by
  constructor
  · have h := runLines_accounting p lines ⟨""⟩
    simpa [runAndDispose, List.length_append] using h
  · intro ev htrim hd hb
    rw [processLine_detected p st raw ev htrim hd, flushText_snd]
    simp [hb]

/-- Closed instance of C4: the lines "hello" then "Done" produce two events
(the flushed text and the done), with the flushed narration first. -/
theorem adapter_event_accounting_witness :
    (runAndDispose (fun _ => none) ["hello", "Done"]).length = 2
    ∧ (processLine (fun _ => none) ⟨"hi"⟩ "Done").emitted
        = [.text "hi" "default", .done "default"] := by
  have h := adapter_event_accounting (fun _ => none) ["hello", "Done"] ⟨"hi"⟩ "Done"
  refine ⟨?_, h.2 (.done "default") (by decide) (by decide) (by decide)⟩
  rw [h.1]; decide

/-- Claim C9: a non-empty line matching no structured detector makes
processLine return null, emit nothing, and only append the line to the
pending text buffer; any non-null processLine return value is the
detection itself (the flushed buffer text reaches the stream, before it,
and is never the return value); the buffered narration surfaces as a text
event on the stream at disposal. -/
theorem adapter_unmatched_returns_null (p : String → Option OpenCodeEvent)
    (st : AdapterState) (raw : String) :
    (jsTrim raw ≠ "" → detectLine p (jsTrim raw) = none →
        processLine p st raw = ⟨accumulateText st (jsTrim raw), [], none⟩)
    ∧ (∀ ev, (processLine p st raw).ret = some ev →
        detectLine p (jsTrim raw) = some ev
        ∧ (processLine p st raw).emitted = (flushText st).2 ++ [ev])
    ∧ (st.textBuffer ≠ "" → disposeAdapter st = [.text st.textBuffer "default"]) := by
  refine ⟨fun h hd => processLine_unmatched p st raw h hd, ?_, ?_⟩
  · intro ev hret
    by_cases h : jsTrim raw = ""
    · rw [processLine_empty p st raw h] at hret
      simp at hret
    · cases hd : detectLine p (jsTrim raw) with
      | some ev' =>
          rw [processLine_detected p st raw ev' h hd] at hret
          obtain rfl : ev' = ev := by simpa using hret
          rw [processLine_detected p st raw _ h hd]
          exact ⟨rfl, rfl⟩
      | none =>
          rw [processLine_unmatched p st raw h hd] at hret
          simp at hret
  · intro hb
    simp [disposeAdapter, flushText, hb]

/-- Closed instance of C9: the plain line "narration text" is buffered,
nothing is emitted, and null is returned. -/
theorem adapter_unmatched_returns_null_witness :
    processLine (fun _ => none) ⟨""⟩ "narration text"
      = ⟨⟨"narration text"⟩, [], none⟩ := by
  have h := (adapter_unmatched_returns_null (fun _ => none) ⟨""⟩ "narration text").1
    (by decide) (by decide)
  rw [h]; decide
